import Mathlib

/-!
Verification of the video_downloader service (src/app.py) against its
natural-language specification.  The Python source is shallowly embedded:
pure helpers become Lean functions, the Flask handler becomes a function of
the request parameters, an explicit configuration record and an explicit
filesystem/engine environment, and every I/O action the handler performs is
recorded in an event trace.
-/

namespace VideoDownloader

/-! ## Python character classes

`sanitize_filename` uses `re.sub(r'[^\w\s-]', '', ...)` and
`re.sub(r'\s+', '_', ...)` on `str`, where `\w` and `\s` have their Unicode
meaning.  `pyWordChar` models `\w` on the character ranges exercised by this
development: ASCII alphanumerics and underscore, Latin letters with
diacritics (Latin-1 Supplement and Latin Extended-A/B, excluding the
multiplication and division signs), and the CJK Unified Ideographs block.
`pyWhitespace` models `\s`: ASCII whitespace, the information separators
U+001C–U+001F, and the Unicode space characters. -/

def pyWordChar (c : Char) : Bool :=
  let n := c.toNat
  decide ((48 ≤ n ∧ n ≤ 57) ∨ (65 ≤ n ∧ n ≤ 90) ∨ (97 ≤ n ∧ n ≤ 122) ∨ n = 95 ∨
    (0xC0 ≤ n ∧ n ≤ 0x24F ∧ n ≠ 0xD7 ∧ n ≠ 0xF7) ∨
    (0x4E00 ≤ n ∧ n ≤ 0x9FFF))

def pyWhitespace (c : Char) : Bool :=
  let n := c.toNat
  decide ((9 ≤ n ∧ n ≤ 13) ∨ (28 ≤ n ∧ n ≤ 32) ∨ n = 0x85 ∨ n = 0xA0 ∨ n = 0x1680 ∨
    (0x2000 ≤ n ∧ n ≤ 0x200A) ∨ n = 0x2028 ∨ n = 0x2029 ∨ n = 0x202F ∨ n = 0x205F ∨
    n = 0x3000)

/-- `re.sub(r'[^\w\s-]', '', s)`: keep exactly the word characters,
whitespace and hyphens. -/
def stripUnsafe (s : List Char) : List Char :=
  s.filter (fun c => pyWordChar c || pyWhitespace c || c == '-')

/-- `re.sub(r'\s+', '_', s)`: replace every maximal run of whitespace by a
single underscore. -/
def collapseWs : List Char → List Char
  | [] => []
  | [c] => if pyWhitespace c then ['_'] else [c]
  | c :: d :: rest =>
    if pyWhitespace c && pyWhitespace d then collapseWs (d :: rest)
    else (if pyWhitespace c then '_' else c) :: collapseWs (d :: rest)

/-- Index of the last occurrence of `c` in `l` (Python `str.rfind`),
accumulator-style. -/
def rfindAux (c : Char) : List Char → Nat → Option Nat → Option Nat
  | [], _, acc => acc
  | x :: rest, i, acc => rfindAux c rest (i + 1) (if x == c then some i else acc)

def rfind (l : List Char) (c : Char) : Option Nat :=
  rfindAux c l 0 none

/-- `os.path.splitext` (POSIX): split off the extension starting at the last
dot, provided that dot lies after the last path separator and the base name
before it is not made of dots only. -/
def splitext (s : List Char) : List Char × List Char :=
  let sep : Int := match rfind s '/' with | some i => (i : Int) | none => -1
  let dot : Int := match rfind s '.' with | some i => (i : Int) | none => -1
  if sep < dot then
    let d := dot.toNat
    let f := (sep + 1).toNat
    if ((s.drop f).take (d - f)).any (fun c => c ≠ '.') then (s.take d, s.drop d)
    else (s, [])
  else (s, [])

/-- Python slice `l[:k]` where `k` may be negative (counts from the end,
clamped at zero). -/
def pySliceTo (l : List Char) (k : Int) : List Char :=
  if k < 0 then l.take (l.length - k.natAbs) else l.take k.toNat

/-- `sanitize_filename` from src/app.py: strip characters outside
`\w`, `\s`, `-`; collapse whitespace runs to `_`; if the result is longer
than `max_length`, split off the extension and truncate the base so that
base + extension has `max_length` characters. -/
def sanitize_filename (filename : String) (max_length : Nat := 100) : String :=
  let cs := collapseWs (stripUnsafe filename.data)
  if max_length < cs.length then
    let p := splitext cs
    String.mk (pySliceTo p.1 ((max_length : Int) - (p.2.length : Int)) ++ p.2)
  else
    String.mk cs

/-! ## MD5 and the request fingerprint

`download_video` computes `hashlib.md5(url.encode()).hexdigest()[:8]`.
`str.encode()` is UTF-8; MD5 is embedded from RFC 1321 over byte lists. -/

/-- UTF-8 encoding of one scalar value, as byte values. -/
def utf8Bytes (c : Char) : List Nat :=
  let n := c.toNat
  if n < 0x80 then [n]
  else if n < 0x800 then [0xC0 + n / 64, 0x80 + n % 64]
  else if n < 0x10000 then [0xE0 + n / 4096, 0x80 + n / 64 % 64, 0x80 + n % 64]
  else [0xF0 + n / 0x40000, 0x80 + n / 4096 % 64, 0x80 + n / 64 % 64, 0x80 + n % 64]

/-- Python `str.encode()`: UTF-8 bytes of the string. -/
def strEncode (s : String) : List Nat :=
  s.data.flatMap utf8Bytes

/-- The 64 MD5 round constants `⌊|sin(i+1)|·2³²⌋`. -/
def md5K : List Nat :=
  [3614090360, 3905402710, 606105819, 3250441966, 4118548399, 1200080426,
   2821735955, 4249261313, 1770035416, 2336552879, 4294925233, 2304563134,
   1804603682, 4254626195, 2792965006, 1236535329, 4129170786, 3225465664,
   643717713, 3921069994, 3593408605, 38016083, 3634488961, 3889429448,
   568446438, 3275163606, 4107603335, 1163531501, 2850285829, 4243563512,
   1735328473, 2368359562, 4294588738, 2272392833, 1839030562, 4259657740,
   2763975236, 1272893353, 4139469664, 3200236656, 681279174, 3936430074,
   3572445317, 76029189, 3654602809, 3873151461, 530742520, 3299628645,
   4096336452, 1126891415, 2878612391, 4237533241, 1700485571, 2399980690,
   4293915773, 2240044497, 1873313359, 4264355552, 2734768916, 1309151649,
   4149444226, 3174756917, 718787259, 3951481745]

/-- The 64 MD5 per-round left-rotation amounts. -/
def md5S : List Nat :=
  [7, 12, 17, 22, 7, 12, 17, 22, 7, 12, 17, 22, 7, 12, 17, 22,
   5, 9, 14, 20, 5, 9, 14, 20, 5, 9, 14, 20, 5, 9, 14, 20,
   4, 11, 16, 23, 4, 11, 16, 23, 4, 11, 16, 23, 4, 11, 16, 23,
   6, 10, 15, 21, 6, 10, 15, 21, 6, 10, 15, 21, 6, 10, 15, 21]

/-- Left rotation of a 32-bit word. -/
def rotl32 (x n : Nat) : Nat :=
  (x * 2 ^ n + x / 2 ^ (32 - n)) % 2 ^ 32

/-- The MD5 round function F/G/H/I, selected by the round index. -/
def md5F (i b c d : Nat) : Nat :=
  if i < 16 then (b &&& c) ||| ((b ^^^ 0xFFFFFFFF) &&& d)
  else if i < 32 then (d &&& b) ||| ((d ^^^ 0xFFFFFFFF) &&& c)
  else if i < 48 then b ^^^ c ^^^ d
  else c ^^^ (b ||| (d ^^^ 0xFFFFFFFF))

/-- The message-word index used in round `i`. -/
def md5G (i : Nat) : Nat :=
  if i < 16 then i
  else if i < 32 then (5 * i + 1) % 16
  else if i < 48 then (3 * i + 5) % 16
  else (7 * i) % 16

/-- One MD5 round on the state `(a, b, c, d)` with message schedule `M`. -/
def md5Round (M : Nat → Nat) (st : Nat × Nat × Nat × Nat) (i : Nat) :
    Nat × Nat × Nat × Nat :=
  let f := (md5F i st.2.1 st.2.2.1 st.2.2.2 + st.1 + md5K.getD i 0 + M (md5G i)) % 2 ^ 32
  (st.2.2.2, (st.2.1 + rotl32 f (md5S.getD i 0)) % 2 ^ 32, st.2.1, st.2.2.1)

/-- Process one 64-byte chunk: 64 rounds, then add the result into the state. -/
def md5Chunk (chunk : List Nat) (st : Nat × Nat × Nat × Nat) :
    Nat × Nat × Nat × Nat :=
  let M := fun j => chunk.getD (4 * j) 0 + 256 * chunk.getD (4 * j + 1) 0 +
    65536 * chunk.getD (4 * j + 2) 0 + 16777216 * chunk.getD (4 * j + 3) 0
  let r := (List.range 64).foldl (md5Round M) st
  ((st.1 + r.1) % 2 ^ 32, (st.2.1 + r.2.1) % 2 ^ 32,
   (st.2.2.1 + r.2.2.1) % 2 ^ 32, (st.2.2.2 + r.2.2.2) % 2 ^ 32)

/-- Process the padded message 64 bytes at a time.  Each step consumes at
least one byte of a non-empty list, so a fuel of the list length suffices
and keeps the recursion structural. -/
def md5ChunksAux : Nat → List Nat → Nat × Nat × Nat × Nat →
    Nat × Nat × Nat × Nat
  | 0, _, st => st
  | _ + 1, [], st => st
  | fuel + 1, l@(_ :: _), st => md5ChunksAux fuel (l.drop 64) (md5Chunk (l.take 64) st)

def md5Chunks (l : List Nat) (st : Nat × Nat × Nat × Nat) :
    Nat × Nat × Nat × Nat :=
  md5ChunksAux l.length l st

/-- MD5 padding: a `0x80` byte, zeros to 56 mod 64, then the bit length as
eight little-endian bytes. -/
def md5Pad (msg : List Nat) : List Nat :=
  msg ++ [0x80] ++ List.replicate ((119 - msg.length % 64) % 64) 0 ++
    (List.range 8).map (fun k => 8 * msg.length / 256 ^ k % 256)

/-- A 32-bit word as four little-endian bytes. -/
def wordToBytesLE (w : Nat) : List Nat :=
  [w % 256, w / 256 % 256, w / 65536 % 256, w / 16777216 % 256]

/-- The 16-byte MD5 digest of a byte list. -/
def md5Bytes (msg : List Nat) : List Nat :=
  let r := md5Chunks (md5Pad msg) (0x67452301, 0xefcdab89, 0x98badcfe, 0x10325476)
  wordToBytesLE r.1 ++ wordToBytesLE r.2.1 ++ wordToBytesLE r.2.2.1 ++
    wordToBytesLE r.2.2.2

/-- Lowercase hexadecimal digit for a nibble. -/
def hexChar (n : Nat) : Char :=
  if n < 10 then Char.ofNat (48 + n) else Char.ofNat (87 + n)

/-- `hexdigest()`: two lowercase hex digits per byte. -/
def bytesToHex (bs : List Nat) : List Char :=
  bs.flatMap (fun b => [hexChar (b / 16 % 16), hexChar (b % 16)])

/-- The request fingerprint from src/app.py line 177:
`hashlib.md5(url.encode()).hexdigest()[:8]`. -/
def fingerprint (url : String) : String :=
  String.mk ((bytesToHex (md5Bytes (strEncode url))).take 8)

/-- The on-disk base filename from src/app.py line 178: `f'video_{url_hash}'`. -/
def baseFilename (url : String) : String :=
  "video_" ++ fingerprint url

/-! ## Configuration, events and option building

The module-level configuration (`DOWNLOAD_DIR`, `CA_CERT_PATH`,
`CLEANUP_INTERVAL_HOURS`) is modelled as an explicit record.  Every I/O
action and log emission the code performs is recorded in an event trace. -/

structure Config where
  downloadDir : String
  caCertPath : Option String
  cleanupIntervalHours : Nat

inductive LogLevel
  | info
  | warning
  | error
deriving DecidableEq, Repr

/-- One observable action of the code: a log emission or an I/O action
(filesystem existence check, MD5 hashing, engine invocation, directory glob,
file streaming). -/
inductive Event
  | log (lvl : LogLevel) (msg : String)
  | certExistsCheck (path : String)
  | hashUrl (url : String)
  | engineFetch (url : String)
  | globScan (pattern : String)
  | pathExistsCheck (path : String)
  | fileStream (path : String)
deriving DecidableEq, Repr

/-- `os.path.join(a, b)` (POSIX, two components). -/
def osPathJoin (a b : String) : String :=
  if b.startsWith "/" then b
  else if a = "" || a.endsWith "/" then a ++ b
  else a ++ "/" ++ b

structure Postprocessor where
  key : String
  preferredcodec : String
deriving DecidableEq, Repr

/-- The yt-dlp options dictionary built by `get_download_options`.  `cafile`
is optional because the `cafile` key is only inserted on the trusted branch;
`postprocessors` is empty when no `postprocessors` key is inserted.  The
`progress_hooks` entry is a pure logging callback and carries no data. -/
structure YdlOptions where
  outtmpl : String
  format : String
  nocheckcertificate : Bool := true
  cafile : Option String := none
  postprocessors : List Postprocessor := []
deriving DecidableEq, Repr

/-- Python truthiness of `CA_CERT_PATH and os.path.exists(CA_CERT_PATH)`:
the variable is set, non-empty, and the file exists. -/
def certTrusted (caCertPath : Option String) (fsExists : String → Bool) : Bool :=
  match caCertPath with
  | none => false
  | some p => !(p == "") && fsExists p

/-- The existence checks performed while evaluating
`CA_CERT_PATH and os.path.exists(CA_CERT_PATH)` (the `and` short-circuits
when the path is unset or empty). -/
def certCheckEvents (caCertPath : Option String) : List Event :=
  match caCertPath with
  | none => []
  | some p => if p == "" then [] else [Event.certExistsCheck p]

/-- `get_download_options` from src/app.py lines 117–153, returning the
options record together with the events it emits. -/
def get_download_options (cfg : Config) (fsExists : String → Bool)
    (format_type base_filename : String) : YdlOptions × List Event :=
  let format_opt := if format_type == "video" then "best" else "bestaudio"
  let options : YdlOptions :=
    { outtmpl := osPathJoin cfg.downloadDir (base_filename ++ ".%(ext)s")
      format := format_opt }
  let branch :=
    if certTrusted cfg.caCertPath fsExists then
      ({ options with nocheckcertificate := false, cafile := cfg.caCertPath },
       certCheckEvents cfg.caCertPath ++
         [Event.log .info ("使用自定义CA证书: " ++ (cfg.caCertPath.getD ""))])
    else
      ({ options with nocheckcertificate := true },
       certCheckEvents cfg.caCertPath ++
         [Event.log .warning "未指定CA证书或证书文件不存在，将跳过证书验证"])
  let withPost :=
    if format_type == "audio" then
      { branch.1 with postprocessors := [⟨"FFmpegExtractAudio", "m4a"⟩] }
    else branch.1
  (withPost, branch.2)

/-! ## The request handler

`download_video` is a function of the request parameters, the configuration,
and an environment describing the filesystem and the outcome of the external
engine call. -/

/-- Outcome of `ydl.extract_info(url, download=True)`: either an info
dictionary (with an optional title) or an exception. -/
inductive EngineOutcome
  | ok (title : Option String)
  | raise

/-- State of the world as seen by one request: the entries currently in the
download directory, the answer to `os.path.exists` at the moment of the
post-glob check (these can disagree when the sweeper runs concurrently), and
the engine outcome. -/
structure RequestEnv where
  dirNames : List String
  fsExists : String → Bool
  engine : EngineOutcome

/-- The HTTP responses the handler can produce: `jsonify({'error': msg}),
status` or a `send_file` attachment with its headers. -/
inductive HttpResponse
  | json (status : Nat) (errorMsg : String)
  | file (path : String) (downloadName : String) (mimetype : String)
      (contentDisposition : String) (xFilename : String) (xFileType : String)
deriving DecidableEq, Repr

def isFileResponse : HttpResponse → Prop
  | .file .. => True
  | .json .. => False

instance (r : HttpResponse) : Decidable (isFileResponse r) := by
  cases r <;> simp [isFileResponse] <;> infer_instance

/-- Uppercase hexadecimal digit for a nibble (`urllib.parse.quote` uses
uppercase percent escapes). -/
def hexCharUpper (n : Nat) : Char :=
  if n < 10 then Char.ofNat (48 + n) else Char.ofNat (55 + n)

/-- `urllib.parse.quote` with the default `safe='/'`: UTF-8 encode, keep
unreserved bytes and `/`, percent-encode the rest. -/
def pyQuote (s : String) : String :=
  String.mk ((strEncode s).flatMap (fun b =>
    if (48 ≤ b && b ≤ 57) || (65 ≤ b && b ≤ 90) || (97 ≤ b && b ≤ 122) ||
        b == 45 || b == 46 || b == 95 || b == 126 || b == 47 then
      [Char.ofNat b]
    else
      ['%', hexCharUpper (b / 16 % 16), hexCharUpper (b % 16)]))

/-- The glob `glob.glob(os.path.join(DOWNLOAD_DIR, base + '.*'))`: directory
entries whose name starts with `base ++ "."`, joined back onto the
directory. -/
def globMatches (dir base : String) (names : List String) : List String :=
  (names.filter (fun n => (base ++ ".").isPrefixOf n)).map (osPathJoin dir)

/-- `download_video` from src/app.py lines 155–221: parameter validation,
fingerprinting, option building, engine invocation, artifact lookup and
response shaping, with `DownloadError` and generic exceptions mapped to the
500 responses of the two `except` clauses.  Returns the response and the
event trace. -/
def download_video (cfg : Config) (env : RequestEnv)
    (urlArg formatArg : Option String) : HttpResponse × List Event :=
  let format_type := formatArg.getD "video"
  match urlArg with
  | none => (.json 400 "URL parameter is required", [])
  | some url =>
    if url = "" then (.json 400 "URL parameter is required", [])
    else if ¬ (format_type = "video" ∨ format_type = "audio") then
      (.json 400 "Invalid format type", [])
    else
      let base := baseFilename url
      let opts := get_download_options cfg env.fsExists format_type base
      let pre := Event.hashUrl url :: opts.2 ++ [Event.engineFetch url]
      match env.engine with
      | .raise =>
        (.json 500 "服务器内部错误",
         pre ++ [Event.log .error "未预期的错误: engine failure"])
      | .ok title =>
        let pattern := osPathJoin cfg.downloadDir (base ++ ".*")
        let found := globMatches cfg.downloadDir base env.dirNames
        let scanned := pre ++ [Event.globScan pattern]
        match found with
        | [] =>
          (.json 500 "下载完成但未找到文件",
           scanned ++ [Event.log .error "下载错误: 下载完成但未找到文件"])
        | downloaded_file :: _ =>
          let checked := scanned ++ [Event.pathExistsCheck downloaded_file]
          if ¬ env.fsExists downloaded_file then
            (.json 500 ("下载文件未找到: " ++ downloaded_file),
             checked ++ [Event.log .error
               ("下载错误: 下载文件未找到: " ++ downloaded_file)])
          else
            let original_title := title.getD "video"
            let file_ext := String.mk (splitext downloaded_file.data).2
            let safe_title := sanitize_filename original_title
            let encoded_filename := pyQuote (safe_title ++ file_ext)
            (.file downloaded_file encoded_filename "application/octet-stream"
               ("attachment; filename*=UTF-8''" ++ encoded_filename)
               encoded_filename format_type,
             checked ++ [Event.fileStream downloaded_file])

/-! ## The retention sweeper -/

/-- One entry of `os.listdir(DOWNLOAD_DIR)` together with the filesystem
facts the sweep consults: whether it is a regular file, its modification
time (microseconds, the resolution of `datetime`), and whether `os.remove`
raises `OSError` on it. -/
structure DirEntry where
  name : String
  isFile : Bool
  mtimeUs : Int
  removeFails : Bool

/-- `timedelta(hours=h)` in microseconds. -/
def hoursToUs (h : Nat) : Int :=
  (h : Int) * 3600 * 1000000

structure CleanupResult where
  removed : List String
  count : Nat
  errors : List String
deriving DecidableEq, Repr

/-- `cleanup_downloads` from src/app.py lines 93–115 at time `now`
(microseconds): skip non-files, delete files strictly older than the
threshold, catch each `OSError` from `os.remove` and continue; the whole
body is wrapped in a `try/except`, so the function always returns a
result. -/
def cleanup_downloads (cfg : Config) (now : Int) :
    List DirEntry → CleanupResult
  | [] => ⟨[], 0, []⟩
  | e :: rest =>
    let r := cleanup_downloads cfg now rest
    if e.isFile then
      if now - e.mtimeUs > hoursToUs cfg.cleanupIntervalHours then
        if e.removeFails then
          { r with errors := ("删除文件失败 " ++ osPathJoin cfg.downloadDir e.name) :: r.errors }
        else
          { removed := osPathJoin cfg.downloadDir e.name :: r.removed
            count := r.count + 1
            errors := r.errors }
      else r
    else r

/-! ## Helper lemmas: the sanitizer -/

theorem stringMkData (s : String) : String.mk s.data = s := rfl

theorem pyWordChar_not_ws {c : Char} (h : pyWordChar c = true) :
    pyWhitespace c = false := by
  simp only [pyWordChar, decide_eq_true_eq] at h
  simp only [pyWhitespace, decide_eq_false_iff_not]
  omega

theorem mem_stripUnsafe {c : Char} {s : List Char} (h : c ∈ stripUnsafe s) :
    pyWordChar c = true ∨ pyWhitespace c = true ∨ c = '-' := by
  simp only [stripUnsafe, List.mem_filter, Bool.or_eq_true, beq_iff_eq] at h
  tauto

theorem stripUnsafe_eq_self {l : List Char}
    (hl : ∀ x ∈ l, pyWordChar x = true ∨ x = '-') : stripUnsafe l = l := by
  refine List.filter_eq_self.mpr fun a ha => ?_
  rcases hl a ha with h | h <;> simp [h]

theorem mem_collapseWs {l : List Char} {c : Char} (h : c ∈ collapseWs l) :
    c = '_' ∨ (c ∈ l ∧ pyWhitespace c = false) := by
  induction l with
  | nil => simp [collapseWs] at h
  | cons a rest ih =>
    cases rest with
    | nil =>
      simp only [collapseWs] at h
      by_cases hw : pyWhitespace a = true
      · rw [if_pos hw] at h
        exact Or.inl (List.mem_singleton.mp h)
      · rw [if_neg hw] at h
        rw [List.mem_singleton.mp h]
        exact Or.inr ⟨List.mem_singleton_self _, Bool.eq_false_iff.mpr hw⟩
    | cons d rest' =>
      simp only [collapseWs] at h
      split at h
      · rcases ih h with h1 | ⟨h1, h2⟩
        · exact Or.inl h1
        · exact Or.inr ⟨List.mem_cons_of_mem _ h1, h2⟩
      · rcases List.mem_cons.mp h with h1 | h1
        · by_cases hw : pyWhitespace a = true
          · rw [if_pos hw] at h1
            exact Or.inl h1
          · rw [if_neg hw] at h1
            subst h1
            exact Or.inr ⟨List.mem_cons_self _ _, Bool.eq_false_iff.mpr hw⟩
        · rcases ih h1 with h2 | ⟨h2, h3⟩
          · exact Or.inl h2
          · exact Or.inr ⟨List.mem_cons_of_mem _ h2, h3⟩

theorem collapseWs_eq_self {l : List Char}
    (hl : ∀ x ∈ l, pyWhitespace x = false) : collapseWs l = l := by
  induction l with
  | nil => rfl
  | cons a rest ih =>
    have ha := hl a (List.mem_cons_self _ _)
    cases rest with
    | nil => simp [collapseWs, ha]
    | cons d rest' =>
      have hd := hl d (List.mem_cons_of_mem _ (List.mem_cons_self _ _))
      have hrest : ∀ x ∈ d :: rest', pyWhitespace x = false :=
        fun x hx => hl x (List.mem_cons_of_mem _ hx)
      simp [collapseWs, ha, hd, ih hrest]

/-- The characters surviving both regex substitutions are word characters or
hyphens (in particular `_`, and never whitespace, dots or slashes). -/
theorem sanitizedChars_spec {s : List Char} {c : Char}
    (h : c ∈ collapseWs (stripUnsafe s)) : pyWordChar c = true ∨ c = '-' := by
  rcases mem_collapseWs h with h1 | ⟨h1, h2⟩
  · subst h1
    exact Or.inl (by decide)
  · rcases mem_stripUnsafe h1 with hw | hws | hh
    · exact Or.inl hw
    · rw [hws] at h2
      cases h2
    · exact Or.inr hh

theorem rfindAux_of_not_mem {c : Char} :
    ∀ {l : List Char} (i : Nat) (acc : Option Nat),
      c ∉ l → rfindAux c l i acc = acc := by
  intro l
  induction l with
  | nil => intro i acc _; rfl
  | cons x rest ih =>
    intro i acc h
    have hx : ¬(x == c) = true := by
      simp only [beq_iff_eq]
      rintro rfl
      exact h (List.mem_cons_self _ _)
    simp only [rfindAux, Bool.not_eq_true] at *
    rw [if_neg (by simp [hx])]
    exact ih _ _ fun hm => h (List.mem_cons_of_mem _ hm)

theorem rfind_eq_none {l : List Char} {c : Char} (h : c ∉ l) :
    rfind l c = none :=
  rfindAux_of_not_mem 0 none h

theorem splitext_no_dot {l : List Char} (hd : '.' ∉ l) : splitext l = (l, []) := by
  unfold splitext
  rw [rfind_eq_none hd]
  cases hs : rfind l '/' with
  | none => simp
  | some i =>
    have hlt : ¬ ((i : Int) < -1) := by omega
    simp [hlt]

/-- `sanitize_filename` in closed form: since `.` never survives the first
substitution, `splitext` finds no extension and truncation is a plain
prefix. -/
theorem sanitize_eq (t : String) (m : Nat) :
    sanitize_filename t m =
      if m < (collapseWs (stripUnsafe t.data)).length then
        String.mk ((collapseWs (stripUnsafe t.data)).take m)
      else String.mk (collapseWs (stripUnsafe t.data)) := by
  unfold sanitize_filename
  have hdot : '.' ∉ collapseWs (stripUnsafe t.data) := by
    intro h
    rcases sanitizedChars_spec h with h1 | h1
    · exact absurd h1 (by decide)
    · exact absurd h1 (by decide)
  dsimp only
  rw [splitext_no_dot hdot]
  split
  · have hm : ¬ ((m : Int) < 0) := by omega
    simp [pySliceTo, hm]
  · rfl

theorem sanitize_chars {t : String} {m : Nat} {c : Char}
    (h : c ∈ (sanitize_filename t m).data) : pyWordChar c = true ∨ c = '-' := by
  rw [sanitize_eq] at h
  split at h
  · exact sanitizedChars_spec (List.take_subset _ _ h)
  · exact sanitizedChars_spec h

theorem sanitize_length_le (t : String) (m : Nat) :
    (sanitize_filename t m).length ≤ m := by
  show (sanitize_filename t m).data.length ≤ m
  rw [sanitize_eq]
  split
  next h =>
    show (List.take m _).length ≤ m
    simp
  next h =>
    show (collapseWs (stripUnsafe t.data)).length ≤ m
    omega

theorem sanitize_idem_aux (t : String) (m : Nat) :
    sanitize_filename (sanitize_filename t m) m = sanitize_filename t m := by
  have hchars : ∀ c ∈ (sanitize_filename t m).data, pyWordChar c = true ∨ c = '-' :=
    fun _ hc => sanitize_chars hc
  have hnws : ∀ x ∈ (sanitize_filename t m).data, pyWhitespace x = false := by
    intro x hx
    rcases hchars x hx with h1 | h1
    · exact pyWordChar_not_ws h1
    · rw [h1]; decide
  have hfix : collapseWs (stripUnsafe (sanitize_filename t m).data) =
      (sanitize_filename t m).data := by
    rw [stripUnsafe_eq_self hchars]
    exact collapseWs_eq_self hnws
  rw [sanitize_eq (sanitize_filename t m) m, hfix]
  have hle : ¬ (m < (sanitize_filename t m).data.length) :=
    Nat.not_lt.mpr (sanitize_length_le t m)
  rw [if_neg hle, stringMkData]

/-! ## Helper lemmas: the fingerprint -/

theorem md5Bytes_length (msg : List Nat) : (md5Bytes msg).length = 16 := by
  simp [md5Bytes, wordToBytesLE]

theorem bytesToHex_length (bs : List Nat) :
    (bytesToHex bs).length = 2 * bs.length := by
  induction bs with
  | nil => rfl
  | cons b rest ih =>
    simp only [bytesToHex, List.flatMap_cons] at *
    simp [ih]
    omega

/-- Lowercase hexadecimal digits, as the spec's `[0-9a-f]`. -/
def isLowerHexDigit (c : Char) : Bool :=
  decide (('0' ≤ c ∧ c ≤ '9') ∨ ('a' ≤ c ∧ c ≤ 'f'))

theorem fingerprint_length (url : String) : (fingerprint url).length = 8 := by
  show (List.take 8 (bytesToHex (md5Bytes (strEncode url)))).length = 8
  rw [List.length_take, bytesToHex_length, md5Bytes_length]
  rfl

theorem fingerprint_chars {url : String} {c : Char}
    (h : c ∈ (fingerprint url).data) : isLowerHexDigit c = true := by
  have key : ∀ k, k < 16 → isLowerHexDigit (hexChar k) = true := by decide
  have h' : c ∈ bytesToHex (md5Bytes (strEncode url)) :=
    List.take_subset _ _ h
  simp only [bytesToHex] at h'
  rcases List.mem_flatMap.mp h' with ⟨b, _, hb⟩
  simp only [List.mem_cons, List.mem_singleton, List.not_mem_nil, or_false] at hb
  rcases hb with rfl | rfl
  · exact key _ (Nat.mod_lt _ (by decide))
  · exact key _ (Nat.mod_lt _ (by decide))

/-! ## Helper lemmas: options builder and sweeper -/

theorem certTrusted_iff {caCertPath : Option String} {fs : String → Bool} :
    certTrusted caCertPath fs = true ↔
      ∃ p, caCertPath = some p ∧ p ≠ "" ∧ fs p = true := by
  cases caCertPath with
  | none => simp [certTrusted]
  | some p => simp [certTrusted]

theorem get_download_options_cert (cfg : Config) (fs : String → Bool)
    (fmt base : String) :
    ((get_download_options cfg fs fmt base).1.nocheckcertificate =
      !certTrusted cfg.caCertPath fs) ∧
    ((get_download_options cfg fs fmt base).1.cafile =
      if certTrusted cfg.caCertPath fs then cfg.caCertPath else none) ∧
    (certTrusted cfg.caCertPath fs = false →
      Event.log .warning "未指定CA证书或证书文件不存在，将跳过证书验证" ∈
        (get_download_options cfg fs fmt base).2) := by
  unfold get_download_options
  by_cases h : certTrusted cfg.caCertPath fs = true <;>
    by_cases h2 : (fmt == "audio") = true <;>
      simp [h, h2]

/-- Entries the sweep tries to delete: regular files strictly older than the
threshold. -/
def sweepExpired (cfg : Config) (now : Int) (e : DirEntry) : Bool :=
  e.isFile && decide (now - e.mtimeUs > hoursToUs cfg.cleanupIntervalHours)

theorem cleanup_characterization (cfg : Config) (now : Int)
    (entries : List DirEntry) :
    (cleanup_downloads cfg now entries).removed =
      ((entries.filter (fun e => sweepExpired cfg now e && !e.removeFails)).map
        (fun e => osPathJoin cfg.downloadDir e.name)) ∧
    (cleanup_downloads cfg now entries).count =
      (entries.filter (fun e => sweepExpired cfg now e && !e.removeFails)).length ∧
    (cleanup_downloads cfg now entries).errors.length =
      (entries.filter (fun e => sweepExpired cfg now e && e.removeFails)).length := by
  induction entries with
  | nil => exact ⟨rfl, rfl, rfl⟩
  | cons e rest ih =>
    obtain ⟨ih1, ih2, ih3⟩ := ih
    by_cases hf : e.isFile = true
    · by_cases hexp : now - e.mtimeUs > hoursToUs cfg.cleanupIntervalHours
      · by_cases hrf : e.removeFails = true
        · simp [cleanup_downloads, sweepExpired, hf, hexp, hrf, ih1, ih2, ih3]
        · simp [cleanup_downloads, sweepExpired, hf, hexp, hrf, ih1, ih2, ih3]
      · simp [cleanup_downloads, sweepExpired, hf, hexp, ih1, ih2, ih3]
    · simp [cleanup_downloads, sweepExpired, hf, ih1, ih2, ih3]

/-! ## The claims -/

/-- C1: `get_download_options` enables certificate verification with the
configured CA path exactly when a CA certificate path is configured
(set and non-empty) and exists on disk at build time; in every other case it
sets `nocheckcertificate`, includes no `cafile` field, and emits a
warning-level log event. -/
theorem C1_cert_trust_policy (cfg : Config) (fsExists : String → Bool)
    (fmt base : String) :
    (((get_download_options cfg fsExists fmt base).1.nocheckcertificate = false) ↔
      ∃ p, cfg.caCertPath = some p ∧ p ≠ "" ∧ fsExists p = true) ∧
    ((get_download_options cfg fsExists fmt base).1.nocheckcertificate = false →
      (get_download_options cfg fsExists fmt base).1.cafile = cfg.caCertPath) ∧
    ((get_download_options cfg fsExists fmt base).1.nocheckcertificate = true →
      (get_download_options cfg fsExists fmt base).1.cafile = none ∧
      Event.log .warning "未指定CA证书或证书文件不存在，将跳过证书验证" ∈
        (get_download_options cfg fsExists fmt base).2) := by
  obtain ⟨h1, h2, h3⟩ := get_download_options_cert cfg fsExists fmt base
  by_cases h : certTrusted cfg.caCertPath fsExists = true
  · refine ⟨?_, fun _ => ?_, fun hc => ?_⟩
    · rw [h1, h]
      simpa using certTrusted_iff.mp h
    · rw [h2, if_pos h]
    · rw [h1, h] at hc
      cases hc
  · have h' : certTrusted cfg.caCertPath fsExists = false := Bool.eq_false_iff.mpr h
    refine ⟨?_, fun hc => ?_, fun _ => ⟨?_, h3 h'⟩⟩
    · rw [h1, h']
      simp only [Bool.not_false]
      constructor
      · intro hcon
        cases hcon
      · intro hex
        exact absurd (certTrusted_iff.mpr hex) h
    · rw [h1, h'] at hc
      cases hc
    · rw [h2, if_neg h]

/-- C1 witness: with no CA path configured, certificate checking is skipped,
no certificate field is set, and the warning event is emitted. -/
theorem C1_cert_trust_policy_witness :
    (get_download_options ⟨"/tmp/video_downloader", none, 24⟩ (fun _ => false)
        "video" "video_0a1b2c3d").1.cafile = none ∧
    Event.log .warning "未指定CA证书或证书文件不存在，将跳过证书验证" ∈
      (get_download_options ⟨"/tmp/video_downloader", none, 24⟩ (fun _ => false)
        "video" "video_0a1b2c3d").2 :=
  (C1_cert_trust_policy ⟨"/tmp/video_downloader", none, 24⟩ (fun _ => false)
    "video" "video_0a1b2c3d").2.2 (by decide)

/-- C2: whenever the engine call returns success but zero files match the
storage-key pattern in the download directory, the handler answers with a
500 response carrying exactly the artifact-not-found message
(`'下载完成但未找到文件'`), never with a file response. -/
theorem C2_zero_matches_is_error (cfg : Config) (env : RequestEnv)
    (u : String) (formatArg : Option String) (title : Option String)
    (hu : u ≠ "")
    (hf : formatArg = none ∨ formatArg = some "video" ∨ formatArg = some "audio")
    (he : env.engine = .ok title)
    (hg : globMatches cfg.downloadDir (baseFilename u) env.dirNames = []) :
    (download_video cfg env (some u) formatArg).1 =
      HttpResponse.json 500 "下载完成但未找到文件" ∧
    ¬ isFileResponse (download_video cfg env (some u) formatArg).1 := by
  have hfmt : formatArg.getD "video" = "video" ∨ formatArg.getD "video" = "audio" := by
    rcases hf with rfl | rfl | rfl <;> simp
  have hok : ¬ ¬ (formatArg.getD "video" = "video" ∨
      formatArg.getD "video" = "audio") := not_not_intro hfmt
  constructor
  · simp [download_video, hu, hok, he, hg]
  · simp [download_video, hu, hok, he, hg, isFileResponse]

/-- C2 witness: a concrete successful engine call over an empty download
directory yields the artifact-not-found 500 response. -/
theorem C2_zero_matches_is_error_witness :
    (download_video ⟨"/tmp/video_downloader", none, 24⟩
        ⟨[], fun _ => false, EngineOutcome.ok (some "T")⟩ (some "http://x") none).1 =
      HttpResponse.json 500 "下载完成但未找到文件" ∧
    ¬ isFileResponse (download_video ⟨"/tmp/video_downloader", none, 24⟩
        ⟨[], fun _ => false, EngineOutcome.ok (some "T")⟩ (some "http://x") none).1 :=
  C2_zero_matches_is_error ⟨"/tmp/video_downloader", none, 24⟩
    ⟨[], fun _ => false, EngineOutcome.ok (some "T")⟩ "http://x" none (some "T")
    (by decide) (Or.inl rfl) rfl rfl

/-- C3: a request with a missing or empty `url` is rejected with status 400
and body `{"error": "URL parameter is required"}`; a request whose `format`
is neither `video` nor `audio` is rejected with status 400 and body
`{"error": "Invalid format type"}`; both rejections produce an empty event
trace — no hashing, no certificate check, no engine call, no glob, no file
access. -/
theorem C3_request_validation (cfg : Config) (env : RequestEnv)
    (formatArg : Option String) :
    (∀ urlArg, urlArg = none ∨ urlArg = some "" →
      download_video cfg env urlArg formatArg =
        (HttpResponse.json 400 "URL parameter is required", [])) ∧
    (∀ u f, u ≠ "" → formatArg = some f → f ≠ "video" → f ≠ "audio" →
      download_video cfg env (some u) formatArg =
        (HttpResponse.json 400 "Invalid format type", [])) := by
  constructor
  · rintro urlArg (rfl | rfl)
    · rfl
    · simp [download_video]
  · rintro u f hu rfl hv ha
    simp [download_video, hu, hv, ha]

/-- C3 witness: a request without `url`, and a request with `format=gif`,
are both rejected with the exact body and an empty trace. -/
theorem C3_request_validation_witness :
    download_video ⟨"/tmp/video_downloader", none, 24⟩
        ⟨[], fun _ => false, EngineOutcome.raise⟩ none none =
      (HttpResponse.json 400 "URL parameter is required", []) ∧
    download_video ⟨"/tmp/video_downloader", none, 24⟩
        ⟨[], fun _ => false, EngineOutcome.raise⟩ (some "http://x") (some "gif") =
      (HttpResponse.json 400 "Invalid format type", []) :=
  ⟨(C3_request_validation ⟨"/tmp/video_downloader", none, 24⟩
      ⟨[], fun _ => false, EngineOutcome.raise⟩ none).1 none (Or.inl rfl),
   (C3_request_validation ⟨"/tmp/video_downloader", none, 24⟩
      ⟨[], fun _ => false, EngineOutcome.raise⟩ (some "gif")).2 "http://x" "gif"
      (by decide) rfl (by decide) (by decide)⟩

/-- C4: the sweep attempts to delete exactly those directory entries that
are regular files whose age strictly exceeds the configured threshold; an
entry whose removal fails only adds an error log and removes nothing, so the
remaining entries are still processed; the reported count is the number of
successful removals.  The sweep is a total function — it always returns a
result. -/
theorem C4_cleanup_sweep (cfg : Config) (now : Int) (entries : List DirEntry) :
    (cleanup_downloads cfg now entries).removed =
      ((entries.filter (fun e => sweepExpired cfg now e && !e.removeFails)).map
        (fun e => osPathJoin cfg.downloadDir e.name)) ∧
    (cleanup_downloads cfg now entries).count =
      (entries.filter (fun e => sweepExpired cfg now e && !e.removeFails)).length ∧
    (cleanup_downloads cfg now entries).errors.length =
      (entries.filter (fun e => sweepExpired cfg now e && e.removeFails)).length :=
  cleanup_characterization cfg now entries

/-- C5: the fingerprint is always exactly 8 characters, every character is a
lowercase hexadecimal digit, and the same url always yields the same
fingerprint (the function is pure — no randomness, no time dependency). -/
theorem C5_fingerprint_deterministic_hex (url : String) :
    (fingerprint url).length = 8 ∧
    (∀ c ∈ (fingerprint url).data, isLowerHexDigit c = true) ∧
    (∀ url2, url2 = url → fingerprint url2 = fingerprint url) :=
  ⟨fingerprint_length url, fun _ hc => fingerprint_chars hc,
   fun _ h => by rw [h]⟩

set_option maxRecDepth 100000 in
/-- C5 witness: the fingerprint of a concrete url, character membership
discharged by evaluation. -/
theorem C5_fingerprint_deterministic_hex_witness :
    isLowerHexDigit '9' = true ∧ fingerprint "http://x" = fingerprint "http://x" :=
  ⟨(C5_fingerprint_deterministic_hex "http://x").2.1 '9' (by decide),
   (C5_fingerprint_deterministic_hex "http://x").2.2 "http://x" rfl⟩

/-- C6 (amended): every character of `sanitize_filename t m` is a Python
word character (which includes non-ASCII letters such as CJK ideographs,
and the underscore) or a hyphen, and never whitespace; the claim's ASCII-only
alphabet `[A-Za-z0-9_-]` is refuted by `C6_counterexample`. -/
theorem C6_sanitize_alphabet (t : String) (m : Nat) :
    ∀ c ∈ (sanitize_filename t m).data,
      (pyWordChar c = true ∨ c = '-') ∧ pyWhitespace c = false := by
  intro c hc
  rcases sanitize_chars hc with h | h
  · exact ⟨Or.inl h, pyWordChar_not_ws h⟩
  · exact ⟨Or.inr h, by rw [h]; decide⟩

/-- C6 witness: a character of the sanitized spec example. -/
theorem C6_sanitize_alphabet_witness :
    (pyWordChar 'M' = true ∨ 'M' = '-') ∧ pyWhitespace 'M' = false :=
  C6_sanitize_alphabet "My Video!!! Title" 100 'M' (by decide)

/-- C6 counterexample: the title `"视频"` consists of Unicode word
characters, so `sanitize_filename` keeps it unchanged, and its characters
are outside the claimed set `[A-Za-z0-9_-]`. -/
theorem C6_counterexample :
    sanitize_filename "视频" 100 = "视频" ∧
    '视' ∈ (sanitize_filename "视频" 100).data ∧
    ('视'.isAlphanum || '视' == '_' || '视' == '-') = false := by
  decide

/-- C7 (amended): the result of `sanitize_filename t m` never exceeds `m`
characters, and whenever the cleaned string exceeds `m`, the result is
exactly its first `m` characters — no extension is preserved, because the
character filter strips every dot before `splitext` runs. -/
theorem C7_sanitize_length_truncation (t : String) (m : Nat) :
    (sanitize_filename t m).length ≤ m ∧
    (m < (collapseWs (stripUnsafe t.data)).length →
      sanitize_filename t m = String.mk ((collapseWs (stripUnsafe t.data)).take m)) :=
  ⟨sanitize_length_le t m, fun h => by rw [sanitize_eq, if_pos h]⟩

/-- C7 witness: concrete truncation. -/
theorem C7_sanitize_length_truncation_witness :
    sanitize_filename "abc.mp4" 5 =
      String.mk ((collapseWs (stripUnsafe ("abc.mp4" : String).data)).take 5) :=
  (C7_sanitize_length_truncation "abc.mp4" 5).2 (by decide)

/-- C7 counterexample: for input `"abc.mp4"` with `maxLength = 5` the claim
predicts base-truncation to exactly 5 characters with the extension `.mp4`
intact, i.e. `"a.mp4"`; the code strips the dot first and returns
`"abcmp"`, which does not end in the extension. -/
theorem C7_counterexample :
    sanitize_filename "abc.mp4" 5 = "abcmp" ∧
    sanitize_filename "abc.mp4" 5 ≠ "a.mp4" ∧
    (".mp4".data.isSuffixOf (sanitize_filename "abc.mp4" 5).data) = false := by
  decide

/-- C8: `get_download_options` selects format `best` for video and
`bestaudio` for audio, and attaches the `FFmpegExtractAudio`/`m4a`
post-processing directive exactly for audio (a video request gets no
post-processor). -/
theorem C8_format_selection (cfg : Config) (fs : String → Bool) (base : String) :
    ((get_download_options cfg fs "video" base).1.format = "best" ∧
     (get_download_options cfg fs "video" base).1.postprocessors = []) ∧
    ((get_download_options cfg fs "audio" base).1.format = "bestaudio" ∧
     (get_download_options cfg fs "audio" base).1.postprocessors =
       [⟨"FFmpegExtractAudio", "m4a"⟩]) := by
  unfold get_download_options
  by_cases h : certTrusted cfg.caCertPath fs = true <;> simp [h]

/-- C9 (amended): the output template targets
`StorageDir/video_<storageKey>.<ext>`: its base filename is the literal
prefix `video_` followed by the 8-hex-character fingerprint of the url, not
the bare fingerprint alone. -/
theorem C9_output_template (cfg : Config) (fs : String → Bool) (fmt url : String) :
    (get_download_options cfg fs fmt (baseFilename url)).1.outtmpl =
      osPathJoin cfg.downloadDir (baseFilename url ++ ".%(ext)s") ∧
    baseFilename url = "video_" ++ fingerprint url ∧
    (fingerprint url).length = 8 := by
  refine ⟨?_, rfl, fingerprint_length url⟩
  unfold get_download_options
  by_cases h : certTrusted cfg.caCertPath fs = true <;>
    by_cases h2 : (fmt == "audio") = true <;> simp [h, h2]

set_option maxRecDepth 100000 in
/-- C9 counterexample: for the url `"a"`, the on-disk base filename is
`video_0cc175b9` — 14 characters — not the bare 8-hex storage key. -/
theorem C9_counterexample :
    baseFilename "a" ≠ fingerprint "a" ∧ (baseFilename "a").length = 14 ∧
    (fingerprint "a").length = 8 := by
  decide

/-- C10: `sanitize_filename` is idempotent — applying it to its own output
(with the same `max_length`) returns that output unchanged. -/
theorem C10_sanitize_idempotent (t : String) (m : Nat) :
    sanitize_filename (sanitize_filename t m) m = sanitize_filename t m :=
  sanitize_idem_aux t m

end VideoDownloader
